import Mathlib

/-!
Verification of the object transfer and preparation pipeline of
`src/internal/native/client.go` (xk6-neofs).

The Go code is embedded shallowly:

* pure computations (`parseNetworkInfo`'s parameter scan, the little-endian
  decoding, the chunking loop) become Lean functions;
* every interaction with an external collaborator (the NeoFS SDK's put/get
  streams, the network-info RPC, string decoding of identifiers, cryptographic
  primitives) is an input: a small environment record describing the outcomes
  the collaborator produces during one execution, or an abstract function
  bundled in `Crypto`;
* Go panics are modelled as error values (`Except`, or `none` outcome fields):
  a panic aborts the call without returning a result to the caller;
* SDK values (`object.Object`, `session.Object`) are modelled with value
  semantics, per the data model of the specification; machine integers are
  `Nat`/`Int` with explicit two's-complement wrapping where the code converts
  between widths (`int(maxObjectSize)` in `Client.Onsite`).
-/

/-- A network configuration parameter, as yielded by
`NetworkConfig().IterateParameters` (client.go:327): a key and a raw byte-string
value.  Bytes are naturals; only their residues mod 256 matter. -/
structure NetworkParameter where
  key : String
  value : List Nat
deriving Repr, DecidableEq

/-- Boolean decoding of a byte string, as `stackitem.NewByteArray(v).TryBool()`
from the neo-go dependency (used at client.go:335-336): it fails when the byte
string is longer than 32 bytes (the VM's big-integer size limit) and otherwise
yields true iff some byte is non-zero. -/
def tryBool (v : List Nat) : Except String Bool :=
  if v.length > 32 then .error "integer is too big"
  else .ok (v.any (fun b => b % 256 != 0))

/-- `binary.LittleEndian.Uint64` applied to the 8-byte buffer filled by
`copy(buf, parameter.Value())` (client.go:330-332): the first 8 value bytes in
little-endian order, missing bytes read as zero, extra bytes ignored. -/
def leUint64 (v : List Nat) : Nat :=
  ((List.range 8).map (fun i => v.getD i 0 % 256 * 256 ^ i)).sum

/-- The state threaded through the parameter scan of `parseNetworkInfo`
(client.go:324-342): the decoded values and the current value of the Go `err`
variable. -/
structure ParseState where
  maxObjSize : Nat
  hhDisabled : Bool
  err : Option String
deriving Repr, DecidableEq

/-- One step of the parameter scan (the callback at client.go:327-342).  Returns
the updated state and the callback's return value (true = stop iterating).
Note that both recognized branches assign the Go `err` variable: the
`MaxObjectSize` branch sets it to nil, and the `HomomorphicHashingDisabled`
branch overwrites it with `TryBool`'s error, nil included. -/
def parseStep (st : ParseState) (p : NetworkParameter) : ParseState × Bool :=
  if p.key = "MaxObjectSize" then
    ({ st with maxObjSize := leUint64 p.value, err := none }, false)
  else if p.key = "HomomorphicHashingDisabled" then
    match tryBool p.value with
    | .ok b => ({ st with hhDisabled := b, err := none }, false)
    | .error e => ({ st with hhDisabled := false, err := some e }, true)
  else (st, false)

/-- `IterateParameters` (client.go:327-342): fold `parseStep` over the parameter
list, stopping early when the callback returns true. -/
def iterateParams : ParseState → List NetworkParameter → ParseState
  | st, [] => st
  | st, p :: ps =>
    let r := parseStep st p
    if r.2 then r.1 else iterateParams r.1 ps

/-- The values returned by a successful `parseNetworkInfo`. -/
structure NetworkInfo where
  maxObjSize : Nat
  epoch : Nat
  hhDisabled : Bool
deriving Repr, DecidableEq

/-- `parseNetworkInfo` (client.go:318-344).  The input models the
`cli.NetworkInfo` RPC: an error, or the current epoch together with the list of
network parameters in scan order.  The scan starts from the
missing-max-object-size error and returns whatever the `err` variable holds at
the end. -/
def parseNetworkInfo (rpc : Except String (Nat × List NetworkParameter)) :
    Except String NetworkInfo :=
  match rpc with
  | .error e => .error e
  | .ok (epoch, params) =>
    let st := iterateParams
      ⟨0, false, some "network configuration misses max object size value"⟩ params
    match st.err with
    | some e => .error e
    | none => .ok ⟨st.maxObjSize, epoch, st.hhDisabled⟩

/-- The Go conversion `int(u)` of a `uint64` value on a 64-bit platform
(client.go:195): two's-complement wrap into the signed 64-bit range. -/
def int64OfUInt64 (u : Nat) : Int :=
  if u % 2 ^ 64 < 2 ^ 63 then ((u % 2 ^ 64 : Nat) : Int)
  else ((u % 2 ^ 64 : Nat) : Int) - 2 ^ 64

/-- Type of an object; only `regular` is used (client.go:217). -/
inductive ObjType
  | regular
deriving Repr, DecidableEq

/-- The header fields of an SDK `object.Object` touched by this code, modelled
with value semantics.  All fields start unset, as after `object.New()`. -/
structure ObjectHeader where
  version : Option Nat := none
  typ : Option ObjType := none
  containerID : Option Nat := none
  ownerID : Option Nat := none
  payloadSize : Nat := 0
  creationEpoch : Nat := 0
  payloadChecksum : Option (List Nat) := none
  homomorphicHash : Option (List Nat) := none
  attributes : List (String × String) := []
  objectID : Option (List Nat) := none
  signature : Option (List Nat) := none
deriving Repr, DecidableEq

/-- The verbs a session token can be scoped to (session.VerbObjectPut,
session.VerbObjectGet). -/
inductive Verb
  | objectPut
  | objectGet
deriving Repr, DecidableEq

/-- A target address: container identifier and, for GET, the object identifier
(`address.Address` built at client.go:82-83 and 138-140). -/
structure Address where
  containerID : Option Nat := none
  objectID : Option Nat := none
deriving Repr, DecidableEq

/-- A session token (`session.Object`): an opaque base body (lifetime, session
key, ...) plus the verb scope, the target and the signature manipulated by
`ForVerb`, `ApplyTo` and `Sign` (client.go:85-91, 142-148). -/
structure SessionToken where
  body : Nat := 0
  verb : Option Verb := none
  target : Option Address := none
  signature : Option (List Nat) := none
deriving Repr, DecidableEq

/-- `tok.ForVerb(v)`. -/
def SessionToken.forVerb (t : SessionToken) (v : Verb) : SessionToken :=
  { t with verb := some v }

/-- `tok.ApplyTo(addr)`. -/
def SessionToken.applyTo (t : SessionToken) (a : Address) : SessionToken :=
  { t with target := some a }

/-- The external cryptographic and SDK-provided primitives used by the client:
`sha256.Sum256`, `tz.Sum`, `user.IDFromKey`, `object.CalculateID`,
`object.CalculateAndSetSignature` (its computed signature value) and the
session-token signing of `tok.Sign`.  They are kept abstract — every theorem
quantifies over them — since their implementations live outside this
repository. -/
structure Crypto where
  sha256 : List Nat → List Nat
  tzSum : List Nat → List Nat
  ownerOf : Nat → Nat
  calcID : ObjectHeader → Except String (List Nat)
  signObj : Nat → ObjectHeader → Except String (List Nat)
  signTok : Nat → SessionToken → Except String (List Nat)

/-- The client state (client.go:32-38): signing key, base session-token
template, configured buffer size.  The gRPC connection is part of the
per-operation environments instead. -/
structure Client where
  key : Nat
  tok : SessionToken
  bufsize : Nat
deriving Repr, DecidableEq

/-- `defaultBufferSize` (client.go:62). -/
def defaultBufferSize : Nat := 64 * 1024

/-- `Client.SetBufferSize` (client.go:64-73): panic — modelled as an error
result, with the client returned unchanged — on a negative size, the default
64 KiB on zero, and the given size otherwise. -/
def Client.SetBufferSize (c : Client) (size : Int) : Except String Unit × Client :=
  if size < 0 then (.error "buffer size must be positive", c)
  else if size = 0 then (.ok (), { c with bufsize := defaultBufferSize })
  else (.ok (), { c with bufsize := size.toNat })

/-- The chunk-writing loop of `put` (client.go:298-304), with explicit fuel:
read up to `bufsize` bytes from the current position, stop on an empty read,
otherwise write the chunk and continue only if the stream accepted it.
`accept i` is the stream's verdict on the i-th attempted chunk write.  The
result lists the chunks whose write was attempted, in offset order.  Fuel
`payload.length` always suffices, because every iteration consumes at least one
byte of the payload (see `putChunks`). -/
def putChunksF : Nat → (Nat → Bool) → Nat → List Nat → List (List Nat)
  | 0, _, _, _ => []
  | fuel + 1, accept, bufsize, payload =>
    if bufsize = 0 ∨ payload = [] then []
    else if accept 0 then
      payload.take bufsize ::
        putChunksF fuel (fun i => accept (i + 1)) bufsize (payload.drop bufsize)
    else [payload.take bufsize]

/-- The chunk writes attempted by the streaming loop of `put`
(client.go:298-304). -/
def putChunks (accept : Nat → Bool) (bufsize : Nat) (payload : List Nat) :
    List (List Nat) :=
  putChunksF payload.length accept bufsize payload

/-- Environment of one `put` execution (client.go:272-316): the outcomes
produced by the store's put stream during this execution — the error of
`ObjectPutInit` (if any), the verdict of `WriteHeader`, the verdict of each
attempted `WritePayloadChunk` (by attempt index) and the pair returned by
`Close` (response carrying the stored object id, and error). -/
structure PutEnv where
  initErr : Option String
  writeHeaderOk : Bool
  chunkAccept : Nat → Bool
  closeResp : Option (List Nat)
  closeErr : Option String

/-- Observable trace of one `put` execution: the returned pair, the stat
reports made, and the chunk writes attempted. -/
structure PutTrace where
  resp : Option (List Nat)
  err : Option String
  totalReports : Nat
  failReports : Nat
  dataSent : Option Nat
  durationReported : Bool
  tokArg : Option SessionToken
  hdrArg : ObjectHeader
  chunks : List (List Nat)
deriving Repr, DecidableEq

/-- `put` (client.go:272-316): report the attempt, open the stream, write the
header, stream the payload in chunks, close.  On an init error or a close
error, report the failure once and return the error; after a header rejection,
report the failure once, close, and return nil together with the close error
(whatever it is). -/
def put (env : PutEnv) (bufsize : Nat) (tok : Option SessionToken)
    (hdr : ObjectHeader) (payload : List Nat) : PutTrace :=
  match env.initErr with
  | some e => ⟨none, some e, 1, 1, none, false, tok, hdr, []⟩
  | none =>
    if env.writeHeaderOk then
      let chunks := putChunks env.chunkAccept bufsize payload
      match env.closeErr with
      | some e => ⟨none, some e, 1, 1, none, false, tok, hdr, chunks⟩
      | none => ⟨env.closeResp, none, 1, 0, some payload.length, true, tok, hdr, chunks⟩
    else
      ⟨none, env.closeErr, 1, 1, none, false, tok, hdr, []⟩

/-- The `PutResponse` returned to the caller (client.go:40-44).  `objectID` is
the stored object identifier read back from the response (for `Client.Put`) or
computed locally (for `PreparedObject.Put`). -/
structure PutResponse where
  success : Bool
  objectID : Option (List Nat)
  error : Option String
deriving Repr, DecidableEq

/-- Outcome of one `Client.Put` invocation.  `response = none` models a panic
(bad container string, token signing failure, or the nil dereference of
`resp.ReadStoredObjectID` when `put` returned a nil response with a nil error).
`tokenPresented` is the session token handed to `put`. -/
structure ClientPutOutcome where
  response : Option PutResponse
  clientAfter : Client
  tokenPresented : Option SessionToken
  totalReports : Nat
  failReports : Nat
  dataSent : Option Nat
  chunks : List (List Nat)
deriving Repr, DecidableEq

/-- `Client.Put` (client.go:75-118): decode the container (an input: the
outcome of `DecodeString` on the caller-supplied string), scope and sign a
fresh copy of the base session token for PUT on that container, build the
header from owner, container and the caller's attributes (in map-iteration
order), run `put`, and on a nil error read the stored object id from the
response. -/
def Client.Put (cr : Crypto) (env : PutEnv) (c : Client)
    (decodeCID : Except String Nat) (headers : List (String × String))
    (payload : List Nat) : ClientPutOutcome :=
  match decodeCID with
  | .error _ => ⟨none, c, none, 0, 0, none, []⟩
  | .ok cidv =>
    let addr : Address := { containerID := some cidv }
    let scopedTok := (c.tok.forVerb .objectPut).applyTo addr
    match cr.signTok c.key scopedTok with
    | .error _ => ⟨none, c, none, 0, 0, none, []⟩
    | .ok s =>
      let tok := { scopedTok with signature := some s }
      let hdr : ObjectHeader :=
        { containerID := some cidv, ownerID := some (cr.ownerOf c.key),
          attributes := headers }
      let tr := put env c.bufsize (some tok) hdr payload
      match tr.err with
      | some e => ⟨some ⟨false, none, some e⟩, c, some tok, tr.totalReports,
          tr.failReports, tr.dataSent, tr.chunks⟩
      | none =>
        match tr.resp with
        | none => ⟨none, c, some tok, tr.totalReports, tr.failReports,
            tr.dataSent, tr.chunks⟩
        | some storedID => ⟨some ⟨true, some storedID, none⟩, c, some tok,
            tr.totalReports, tr.failReports, tr.dataSent, tr.chunks⟩

/-- Environment of one `Client.Get` execution: the outcomes produced by the
store's get stream — the error of `ObjectGetInit` (if any), the verdict of
`ReadHeader`, the successive results of `Read` (length read and error; once
the list is exhausted the stream keeps returning zero-length reads), and the
error of `Close`. -/
structure GetEnv where
  initErr : Option String
  headerOk : Bool
  reads : List (Nat × Option String)
  closeErr : Option String
deriving Repr, DecidableEq

/-- The `GetResponse` returned to the caller (client.go:46-49). -/
structure GetResponse where
  success : Bool
  error : Option String
deriving Repr, DecidableEq

/-- Outcome of one `Client.Get` invocation.  `response = none` models a panic
(bad identifier string, token signing failure, or calling `err.Error()` on a
nil close error in the failed-header path). -/
structure GetOutcome where
  response : Option GetResponse
  clientAfter : Client
  tokenPresented : Option SessionToken
  totalReports : Nat
  failReports : Nat
  dataReceived : Option Nat
  durationReported : Bool
deriving Repr, DecidableEq

/-- The payload read loop of `Client.Get` (client.go:171-175): total bytes over
successive reads, stopping at the first read that returns zero bytes.  A
read's error component is discarded by the loop (`n, _ = objectReader.Read`). -/
def getLoopSz : List (Nat × Option String) → Nat
  | [] => 0
  | (n, _) :: rest => if n = 0 then 0 else n + getLoopSz rest

/-- `Client.Get` (client.go:120-186): decode both identifiers, scope and sign a
fresh copy of the base session token for GET on that container+object address,
report the attempt, open the stream, read the header (closing and failing if it
cannot be read), drain the payload counting bytes, close, and report metrics on
success. -/
def Client.Get (cr : Crypto) (env : GetEnv) (c : Client)
    (decodeCID decodeOID : Except String Nat) : GetOutcome :=
  match decodeCID with
  | .error _ => ⟨none, c, none, 0, 0, none, false⟩
  | .ok cidv =>
    match decodeOID with
    | .error _ => ⟨none, c, none, 0, 0, none, false⟩
    | .ok oidv =>
      let addr : Address := { containerID := some cidv, objectID := some oidv }
      let scopedTok := (c.tok.forVerb .objectGet).applyTo addr
      match cr.signTok c.key scopedTok with
      | .error _ => ⟨none, c, none, 0, 0, none, false⟩
      | .ok s =>
        let tok := { scopedTok with signature := some s }
        match env.initErr with
        | some e => ⟨some ⟨false, some e⟩, c, some tok, 1, 1, none, false⟩
        | none =>
          if env.headerOk then
            let sz := getLoopSz env.reads
            match env.closeErr with
            | some e => ⟨some ⟨false, some e⟩, c, some tok, 1, 1, none, false⟩
            | none => ⟨some ⟨true, none⟩, c, some tok, 1, 0, some sz, true⟩
          else
            match env.closeErr with
            | some e => ⟨some ⟨false, some e⟩, c, some tok, 1, 1, none, false⟩
            | none => ⟨none, c, some tok, 1, 1, none, false⟩

/-- A prepared object (client.go:51-59): the client configuration captured at
preparation time plus the precomputed header and the payload. -/
structure PreparedObject where
  key : Nat
  bufsize : Nat
  hdr : ObjectHeader
  payload : List Nat
deriving Repr, DecidableEq

/-- The distinct panic conditions of `Client.Onsite` (client.go:188-208):
a network-parameter resolution failure, the payload-too-large condition
(carrying the observed size and the limit as printed at client.go:200), and a
container decode failure. -/
inductive OnsiteError
  | netParams (msg : String)
  | payloadTooLarge (size : Nat) (limit : Nat)
  | badContainer (msg : String)
deriving Repr, DecidableEq

/-- `version.Current()`, an opaque constant. -/
def currentVersion : Nat := 0

/-- `Client.Onsite` (client.go:188-240): resolve the network parameters, check
the payload length against `int(maxObjectSize)` (the Go signed conversion!),
decode the container, and build the prepared header: version, regular type,
container, owner, payload size, creation epoch, the SHA-256 payload checksum
always, and the Tillich-Zémor homomorphic checksum only when homomorphic
hashing is not disabled. -/
def Client.Onsite (cr : Crypto) (rpc : Except String (Nat × List NetworkParameter))
    (c : Client) (decodeCID : Except String Nat) (payload : List Nat) :
    Except OnsiteError PreparedObject :=
  match parseNetworkInfo rpc with
  | .error e => .error (.netParams e)
  | .ok ni =>
    if (payload.length : Int) > int64OfUInt64 ni.maxObjSize then
      .error (.payloadTooLarge payload.length ni.maxObjSize)
    else
      match decodeCID with
      | .error e => .error (.badContainer e)
      | .ok cidv =>
        let owner := cr.ownerOf c.key
        let hdr : ObjectHeader :=
          { version := some currentVersion
            typ := some .regular
            containerID := some cidv
            ownerID := some owner
            payloadSize := payload.length
            creationEpoch := ni.epoch
            payloadChecksum := some (cr.sha256 payload)
            homomorphicHash := if ni.hhDisabled then none else some (cr.tzSum payload) }
        .ok ⟨c.key, c.bufsize, hdr, payload⟩

/-- Outcome of one `PreparedObject.Put` invocation.  `sentObj` is the object
handed to `put` (header with this call's attributes, id and signature set),
when streaming was reached; `prepAfter` is the prepared object after the call. -/
structure PreparedPutOutcome where
  response : PutResponse
  sentObj : Option ObjectHeader
  prepAfter : PreparedObject
  totalReports : Nat
  failReports : Nat
  chunks : List (List Nat)
deriving Repr, DecidableEq

/-- `PreparedObject.Put` (client.go:242-270): copy the prepared header, set this
call's attributes on the copy, compute and set the object identifier over the
copy, sign it, and stream it with `put` (without a session token), reporting
the identifier computed locally on success.  Identifier computation and signing
failures are returned as failed responses without starting a transfer. -/
def PreparedObject.Put (cr : Crypto) (env : PutEnv) (p : PreparedObject)
    (headers : List (String × String)) : PreparedPutOutcome :=
  let obj := { p.hdr with attributes := headers }
  match cr.calcID obj with
  | .error e => ⟨⟨false, none, some e⟩, none, p, 0, 0, []⟩
  | .ok idv =>
    let obj := { obj with objectID := some idv }
    match cr.signObj p.key obj with
    | .error e => ⟨⟨false, none, some e⟩, none, p, 0, 0, []⟩
    | .ok sg =>
      let obj := { obj with signature := some sg }
      let tr := put env p.bufsize none obj p.payload
      match tr.err with
      | some e => ⟨⟨false, none, some e⟩, some obj, p, tr.totalReports,
          tr.failReports, tr.chunks⟩
      | none => ⟨⟨true, some idv, none⟩, some obj, p, tr.totalReports,
          tr.failReports, tr.chunks⟩

/-- A concrete instantiation of the abstract primitives, for evaluating the
model on closed inputs. -/
def cr0 : Crypto where
  sha256 := fun l => [l.length]
  tzSum := fun l => [l.length + 1]
  ownerOf := fun k => k + 2
  calcID := fun h => .ok [h.attributes.length]
  signObj := fun k _ => .ok [k]
  signTok := fun k _ => .ok [k + 3]

/-- A concrete base session-token template. -/
def tok0 : SessionToken := {}

/-- A concrete client. -/
def client0 : Client := { key := 5, tok := tok0, bufsize := 4 }

/-- A put-stream environment in which every step succeeds. -/
def penv0 : PutEnv :=
  { initErr := none, writeHeaderOk := true, chunkAccept := fun _ => true,
    closeResp := some [9], closeErr := none }

/-- A get-stream environment in which every step succeeds; the second read
carries a (discarded) error, the third is the zero-length end of stream. -/
def genv0 : GetEnv :=
  { initErr := none, headerOk := true,
    reads := [(3, none), (2, some "transient"), (0, none)], closeErr := none }

/-- A get-stream environment whose header read fails and whose close reports
the corresponding error. -/
def genvH : GetEnv :=
  { initErr := none, headerOk := false, reads := [], closeErr := some "header read failed" }

/-- A concrete prepared object. -/
def prep0 : PreparedObject := { key := 5, bufsize := 4, hdr := {}, payload := [1, 2, 3] }

/-- A concrete network-info RPC result: epoch 3, maximum object size 16. -/
def rpc0 : Except String (Nat × List NetworkParameter) :=
  .ok (3, [⟨"MaxObjectSize", [16]⟩])

/-- The prepared object `Client.Onsite cr0 rpc0 client0 (.ok 1) [1, 2]` builds. -/
def prep1 : PreparedObject :=
  { key := 5, bufsize := 4
    hdr := { version := some currentVersion, typ := some .regular,
             containerID := some 1, ownerID := some 7, payloadSize := 2,
             creationEpoch := 3, payloadChecksum := some [2],
             homomorphicHash := some [3] }
    payload := [1, 2] }

/-- Every chunk attempted by the streaming loop is non-empty and no longer than
the buffer. -/
theorem putChunksF_bounds (fuel : Nat) :
    ∀ (accept : Nat → Bool) (bufsize : Nat) (payload : List Nat),
      ∀ ch ∈ putChunksF fuel accept bufsize payload, ch ≠ [] ∧ ch.length ≤ bufsize := by
  induction fuel with
  | zero =>
    intro accept bufsize payload ch hch
    simp [putChunksF] at hch
  | succ n ih =>
    intro accept bufsize payload ch hch
    simp only [putChunksF] at hch
    split at hch
    case isTrue => simp at hch
    case isFalse h =>
      push_neg at h
      have htake : payload.take bufsize ≠ [] ∧ (payload.take bufsize).length ≤ bufsize := by
        constructor
        · intro hnil
          have : min bufsize payload.length = 0 := by
            simpa [List.length_take] using congrArg List.length hnil
          rcases Nat.min_eq_zero_iff.mp this with h0 | h0
          · exact h.1 h0
          · exact h.2 (List.eq_nil_of_length_eq_zero h0)
        · simp [List.length_take]
      split at hch
      · rcases List.mem_cons.mp hch with rfl | hmem
        · exact htake
        · exact ih _ _ _ ch hmem
      · rcases List.mem_singleton.mp hch with rfl
        exact htake

/-- The concatenation of the attempted chunks is a prefix of the payload. -/
theorem putChunksF_concat (fuel : Nat) :
    ∀ (accept : Nat → Bool) (bufsize : Nat) (payload : List Nat),
      ∃ rest, (putChunksF fuel accept bufsize payload).flatten ++ rest = payload := by
  induction fuel with
  | zero =>
    intro accept bufsize payload
    exact ⟨payload, by simp [putChunksF]⟩
  | succ n ih =>
    intro accept bufsize payload
    simp only [putChunksF]
    split
    · exact ⟨payload, by simp⟩
    · split
      · obtain ⟨rest, hrest⟩ := ih (fun i => accept (i + 1)) bufsize (payload.drop bufsize)
        refine ⟨rest, ?_⟩
        rw [List.flatten_cons, List.append_assoc, hrest, List.take_append_drop]
      · exact ⟨payload.drop bufsize, by simp [List.take_append_drop]⟩

/-- With enough fuel, a positive buffer and no rejected write, the loop streams
the whole payload. -/
theorem putChunksF_all_accepted (fuel : Nat) :
    ∀ (accept : Nat → Bool) (bufsize : Nat) (payload : List Nat),
      0 < bufsize → payload.length ≤ fuel → (∀ i, accept i = true) →
      (putChunksF fuel accept bufsize payload).flatten = payload := by
  induction fuel with
  | zero =>
    intro accept bufsize payload _ hlen _
    have : payload = [] := List.eq_nil_of_length_eq_zero (Nat.le_zero.mp hlen)
    subst this
    simp [putChunksF]
  | succ n ih =>
    intro accept bufsize payload hb hlen hacc
    simp only [putChunksF]
    split
    case isTrue h =>
      rcases h with h | h
      · omega
      · simp [h]
    case isFalse h =>
      push_neg at h
      rw [if_pos (hacc 0), List.flatten_cons,
        ih (fun i => accept (i + 1)) bufsize (payload.drop bufsize) hb ?_
          (fun i => hacc (i + 1)),
        List.take_append_drop]
      have : payload.length ≠ 0 := fun hz => h.2 (List.eq_nil_of_length_eq_zero hz)
      simp only [List.length_drop]
      omega

/-- A rejected write can only be the last attempted one: every attempt with a
successor in the list was accepted. -/
theorem putChunksF_reject_last (fuel : Nat) :
    ∀ (accept : Nat → Bool) (bufsize : Nat) (payload : List Nat) (i : Nat),
      i + 1 < (putChunksF fuel accept bufsize payload).length → accept i = true := by
  induction fuel with
  | zero =>
    intro accept bufsize payload i h
    simp [putChunksF] at h
  | succ n ih =>
    intro accept bufsize payload i h
    simp only [putChunksF] at h
    split at h
    · simp at h
    · by_cases ha : accept 0 = true
      · rw [if_pos ha] at h
        simp only [List.length_cons] at h
        cases i with
        | zero => exact ha
        | succ j =>
          exact ih (fun k => accept (k + 1)) bufsize (payload.drop bufsize) j (by omega)
      · rw [if_neg ha] at h
        simp at h

/-- The read loop's byte total is the sum of the read lengths up to (and
excluding) the first zero-length read; read errors play no role. -/
theorem getLoopSz_takeWhile (l : List (Nat × Option String)) :
    getLoopSz l = ((l.map Prod.fst).takeWhile (fun n => n != 0)).sum := by
  induction l with
  | nil => rfl
  | cons p rest ih =>
    obtain ⟨n, e⟩ := p
    by_cases h : n = 0
    · subst h
      simp [getLoopSz, List.takeWhile_cons]
    · simp [getLoopSz, List.takeWhile_cons, h, ih]

/-- C8: `Client.SetBufferSize` stores the 64 KiB default when the size is zero,
the size itself when it is positive, and signals a configuration error — with
the client, its stored buffer size included, unchanged — when it is negative. -/
theorem c8_set_buffer_size (c : Client) (size : Int) :
    (size < 0 → Client.SetBufferSize c size = (.error "buffer size must be positive", c)) ∧
    (size = 0 → Client.SetBufferSize c size = (.ok (), { c with bufsize := defaultBufferSize })) ∧
    (0 < size → Client.SetBufferSize c size = (.ok (), { c with bufsize := size.toNat }) ∧
      (((Client.SetBufferSize c size).2.bufsize : Int) = size)) := by
  refine ⟨fun h => ?_, fun h => ?_, fun h => ?_⟩
  · simp [Client.SetBufferSize, h]
  · simp [Client.SetBufferSize, h]
  · have h1 : ¬ size < 0 := by omega
    have h2 : size ≠ 0 := by omega
    refine ⟨by simp [Client.SetBufferSize, h1, h2], ?_⟩
    simp [Client.SetBufferSize, h1, h2, Int.toNat_of_nonneg (le_of_lt h)]

/-- C8 witness: concrete negative, zero and positive sizes. -/
theorem c8_set_buffer_size_witness :
    Client.SetBufferSize client0 (-1) = (.error "buffer size must be positive", client0) ∧
    Client.SetBufferSize client0 0 = (.ok (), { client0 with bufsize := defaultBufferSize }) ∧
    Client.SetBufferSize client0 7 = (.ok (), { client0 with bufsize := (7 : Int).toNat }) :=
  ⟨(c8_set_buffer_size client0 (-1)).1 (by decide),
   (c8_set_buffer_size client0 0).2.1 rfl,
   ((c8_set_buffer_size client0 7).2.2 (by decide)).1⟩

/-- C2 (code bug): a network-parameters response whose only entry is a
well-formed HomomorphicHashingDisabled flag — MaxObjectSize absent — parses
successfully, with a zero maximum object size and no error: the multiple
assignment `hhDisabled, err = arr.TryBool()` (client.go:336) overwrites the
pre-set missing-required-parameter error with nil, instead of the claimed
failure for every response lacking MaxObjectSize. -/
theorem c2_missing_max_not_flagged :
    parseNetworkInfo (.ok (7, [⟨"HomomorphicHashingDisabled", [1]⟩]))
      = .ok ⟨0, 7, true⟩ := rfl

/-- C1 (counterexample): with MaxObjectSize resolved to 2^63 (little-endian
bytes 00…0080), the size check converts it to a negative signed 64-bit value,
so even the empty payload — whose length certainly does not exceed the
maximum — raises the PayloadTooLarge condition. -/
theorem c1_payload_too_large_counterexample :
    Client.Onsite cr0 (.ok (0, [⟨"MaxObjectSize", [0, 0, 0, 0, 0, 0, 0, 128]⟩]))
        client0 (.ok 1) []
      = .error (.payloadTooLarge 0 9223372036854775808) := rfl

/-- C1 (amended): provided the resolved maximum object size is below 2^63 — so
that the Go conversion `int(maxObjectSize)` at client.go:195 preserves the
value — `Client.Onsite` raises the PayloadTooLarge condition iff the payload
length strictly exceeds the maximum; in particular a payload whose length
equals the maximum does not raise it.
(`c1_payload_too_large_counterexample` shows the 2^63 bound is necessary.) -/
theorem c1_payload_too_large_iff (cr : Crypto)
    (rpc : Except String (Nat × List NetworkParameter)) (c : Client)
    (dec : Except String Nat) (payload : List Nat) (ni : NetworkInfo)
    (hres : parseNetworkInfo rpc = .ok ni) (hmax : ni.maxObjSize < 2 ^ 63) :
    (∃ s l, Client.Onsite cr rpc c dec payload = .error (.payloadTooLarge s l)) ↔
      payload.length > ni.maxObjSize := by
  have h64 : ni.maxObjSize < 2 ^ 64 := lt_trans hmax (by norm_num)
  have hconv : int64OfUInt64 ni.maxObjSize = (ni.maxObjSize : Int) := by
    unfold int64OfUInt64
    rw [Nat.mod_eq_of_lt h64, if_pos hmax]
  simp only [Client.Onsite, hres]
  constructor
  · rintro ⟨s, l, h⟩
    by_cases hgt : (payload.length : Int) > int64OfUInt64 ni.maxObjSize
    · rw [hconv] at hgt
      exact_mod_cast hgt
    · rw [if_neg hgt] at h
      cases dec with
      | error e => simp at h
      | ok cidv => simp at h
  · intro hgt
    have hi : (payload.length : Int) > int64OfUInt64 ni.maxObjSize := by
      rw [hconv]
      exact_mod_cast hgt
    rw [if_pos hi]
    exact ⟨payload.length, ni.maxObjSize, rfl⟩

/-- C1 witness: a 17-byte payload against a resolved maximum of 16 raises the
condition. -/
theorem c1_payload_too_large_iff_witness :
    ∃ s l, Client.Onsite cr0 (.ok (0, [⟨"MaxObjectSize", [16]⟩])) client0 (.ok 1)
        (List.replicate 17 0) = .error (.payloadTooLarge s l) :=
  (c1_payload_too_large_iff cr0 (.ok (0, [⟨"MaxObjectSize", [16]⟩])) client0 (.ok 1)
      (List.replicate 17 0) ⟨16, 0, false⟩ rfl (by norm_num)).mpr (by decide)

/-- C6: every payload accepted by `Client.Onsite` yields a header carrying the
standard SHA-256 payload checksum, and carrying the homomorphic (Tillich-Zémor)
payload checksum iff the network's homomorphic-hashing-disabled flag is
false. -/
theorem c6_onsite_checksums (cr : Crypto)
    (rpc : Except String (Nat × List NetworkParameter)) (c : Client)
    (dec : Except String Nat) (payload : List Nat) (prep : PreparedObject)
    (h : Client.Onsite cr rpc c dec payload = .ok prep) :
    prep.hdr.payloadChecksum = some (cr.sha256 payload) ∧
    ∃ ni, parseNetworkInfo rpc = .ok ni ∧
      prep.hdr.homomorphicHash
        = (if ni.hhDisabled then none else some (cr.tzSum payload)) := by
  cases hres : parseNetworkInfo rpc with
  | error e =>
    simp only [Client.Onsite, hres] at h
    exact absurd h (by simp)
  | ok ni =>
    simp only [Client.Onsite, hres] at h
    by_cases hgt : (payload.length : Int) > int64OfUInt64 ni.maxObjSize
    · rw [if_pos hgt] at h
      exact absurd h (by simp)
    · rw [if_neg hgt] at h
      cases dec with
      | error e => exact absurd h (by simp)
      | ok cidv =>
        simp only [Except.ok.injEq] at h
        subst h
        exact ⟨rfl, ni, rfl, rfl⟩

/-- C6 witness: a concrete accepted payload; its header carries both checksums
since homomorphic hashing is not disabled in `rpc0`. -/
theorem c6_onsite_checksums_witness :
    prep1.hdr.payloadChecksum = some (cr0.sha256 [1, 2]) ∧
    ∃ ni, parseNetworkInfo rpc0 = .ok ni ∧
      prep1.hdr.homomorphicHash
        = (if ni.hhDisabled then none else some (cr0.tzSum [1, 2])) :=
  c6_onsite_checksums cr0 rpc0 client0 (.ok 1) [1, 2] prep1 rfl

/-- C5: `PreparedObject.Put` leaves the prepared object (header and payload)
unchanged, so two successive calls behave as two independent calls; each call
computes the object identifier over a copy of the prepared header carrying that
call's attributes; and the payload checksum fields of the object each call
sends are exactly those computed at preparation time. -/
theorem c5_prepared_put_independent (cr : Crypto) (env1 env2 : PutEnv)
    (p : PreparedObject) (attrs1 attrs2 : List (String × String)) :
    (PreparedObject.Put cr env1 p attrs1).prepAfter = p ∧
    PreparedObject.Put cr env2 ((PreparedObject.Put cr env1 p attrs1).prepAfter) attrs2
      = PreparedObject.Put cr env2 p attrs2 ∧
    (∀ idv, (PreparedObject.Put cr env1 p attrs1).response.objectID = some idv →
      cr.calcID { p.hdr with attributes := attrs1 } = .ok idv) ∧
    (∀ obj, (PreparedObject.Put cr env1 p attrs1).sentObj = some obj →
      obj.payloadChecksum = p.hdr.payloadChecksum ∧
      obj.homomorphicHash = p.hdr.homomorphicHash) := by
  have hframe : ∀ (env : PutEnv) (attrs : List (String × String)),
      (PreparedObject.Put cr env p attrs).prepAfter = p := by
    intro env attrs
    simp only [PreparedObject.Put]
    split
    · rfl
    · split
      · rfl
      · split <;> rfl
  refine ⟨hframe env1 attrs1, by rw [hframe env1 attrs1], fun idv hid => ?_, fun obj hobj => ?_⟩
  · simp only [PreparedObject.Put] at hid
    split at hid
    case h_1 e heq => simp at hid
    case h_2 idv0 heq =>
      split at hid
      case h_1 => simp at hid
      case h_2 sg heq2 =>
        split at hid
        · simp at hid
        · simp only [Option.some.injEq] at hid
          subst hid
          exact heq
  · simp only [PreparedObject.Put] at hobj
    split at hobj
    case h_1 e heq => simp at hobj
    case h_2 idv0 heq =>
      split at hobj
      case h_1 => simp at hobj
      case h_2 sg heq2 =>
        split at hobj <;>
        · simp only [Option.some.injEq] at hobj
          subst hobj
          exact ⟨rfl, rfl⟩

/-- C5 witness: a concrete call whose identifier was computed over the prepared
header with this call's single attribute. -/
theorem c5_prepared_put_independent_witness :
    cr0.calcID { prep0.hdr with attributes := [("a", "b")] } = .ok [1] :=
  (c5_prepared_put_independent cr0 penv0 penv0 prep0 [("a", "b")] []).2.2.1 [1] rfl

/-- C3: for every payload and every positive buffer size, the PUT streaming
loop attempts non-empty chunk writes of at most the buffer size, in original
offset order: the concatenation of the attempted chunks is a prefix of the
payload, and is the whole payload when every write is accepted; after a
rejected write no further chunk is attempted (a rejection can only be the last
attempted write); and this loop is exactly what `put` runs once the header is
written, before the stream is closed. -/
theorem c3_put_streaming (accept : Nat → Bool) (bufsize : Nat) (payload : List Nat)
    (hpos : 0 < bufsize) :
    (∀ ch ∈ putChunks accept bufsize payload, ch ≠ [] ∧ ch.length ≤ bufsize) ∧
    (∃ rest, (putChunks accept bufsize payload).flatten ++ rest = payload) ∧
    ((∀ i, accept i = true) → (putChunks accept bufsize payload).flatten = payload) ∧
    (∀ i, i + 1 < (putChunks accept bufsize payload).length → accept i = true) ∧
    (∀ env : PutEnv, env.initErr = none → env.writeHeaderOk = true →
      env.chunkAccept = accept → ∀ tok hdr,
        (put env bufsize tok hdr payload).chunks = putChunks accept bufsize payload) := by
  refine ⟨putChunksF_bounds payload.length accept bufsize payload,
    putChunksF_concat payload.length accept bufsize payload,
    fun hacc => putChunksF_all_accepted payload.length accept bufsize payload hpos le_rfl hacc,
    putChunksF_reject_last payload.length accept bufsize payload, ?_⟩
  intro env h1 h2 h3 tok hdr
  simp only [put, h1, h2, if_true]
  split <;> simp [putChunks, h3]

/-- C3 witness: buffer size 2 on a 3-byte payload with every write accepted
streams the whole payload. -/
theorem c3_put_streaming_witness :
    (putChunks (fun _ => true) 2 [1, 2, 3]).flatten = [1, 2, 3] :=
  (c3_put_streaming (fun _ => true) 2 [1, 2, 3] (by decide)).2.2.1 (fun _ => rfl)

/-- C10: the result (response and failure reporting) of `Client.Get` is
determined solely by the stream open, the header read and the stream close —
in particular an error returned by an individual chunk read neither fails the
operation nor increments the failure counter; the payload loop stops at the
first zero-length read; and the bytes-received metric reported on success is
the sum of the chunk read lengths. -/
theorem c10_get_chunk_reads (cr : Crypto) (genv : GetEnv)
    (reads2 : List (Nat × Option String)) (c : Client) (dcg dog : Except String Nat) :
    ((Client.Get cr { genv with reads := reads2 } c dcg dog).response
        = (Client.Get cr genv c dcg dog).response ∧
      (Client.Get cr { genv with reads := reads2 } c dcg dog).failReports
        = (Client.Get cr genv c dcg dog).failReports) ∧
    getLoopSz genv.reads = ((genv.reads.map Prod.fst).takeWhile (fun n => n != 0)).sum ∧
    (∀ r, (Client.Get cr genv c dcg dog).response = some r → r.success = true →
      (Client.Get cr genv c dcg dog).dataReceived = some (getLoopSz genv.reads)) := by
  obtain ⟨ie, hok, reads1, cerr⟩ := genv
  refine ⟨?_, getLoopSz_takeWhile reads1, ?_⟩
  · rcases dcg with e | cidv
    · exact ⟨rfl, rfl⟩
    · rcases dog with e | oidv
      · exact ⟨rfl, rfl⟩
      · rcases hs : cr.signTok c.key
            ((c.tok.forVerb .objectGet).applyTo ⟨some cidv, some oidv⟩) with e | s
        · simp [Client.Get, hs]
        · rcases ie with _ | e
          · cases hok <;> rcases cerr with _ | e <;> simp [Client.Get, hs]
          · simp [Client.Get, hs]
  · intro r hr hsucc
    rcases dcg with e | cidv
    · exact absurd hr (by simp [Client.Get])
    · rcases dog with e | oidv
      · exact absurd hr (by simp [Client.Get])
      · rcases hs : cr.signTok c.key
            ((c.tok.forVerb .objectGet).applyTo ⟨some cidv, some oidv⟩) with e | s
        · exact absurd hr (by simp [Client.Get, hs])
        · rcases ie with _ | e
          · cases hok
            · rcases cerr with _ | e
              · exact absurd hr (by simp [Client.Get, hs])
              · simp [Client.Get, hs] at hr
                rw [← hr] at hsucc
                exact absurd hsucc (by simp)
            · rcases cerr with _ | e
              · simp [Client.Get, hs]
              · simp [Client.Get, hs] at hr
                rw [← hr] at hsucc
                exact absurd hsucc (by simp)
          · simp [Client.Get, hs] at hr
            rw [← hr] at hsucc
            exact absurd hsucc (by simp)

/-- C10 witness: a successful GET whose second chunk read carried a (discarded)
error still succeeds, and reports 3 + 2 = 5 bytes received. -/
theorem c10_get_chunk_reads_witness :
    (Client.Get cr0 genv0 client0 (.ok 1) (.ok 2)).dataReceived
      = some (getLoopSz genv0.reads) :=
  (c10_get_chunk_reads cr0 genv0 [] client0 (.ok 1) (.ok 2)).2.2 ⟨true, none⟩ rfl rfl

/-- C7: each `Client.Put` / `Client.Get` invocation presents a session token
freshly derived from the client's base template — same base body, verb bound to
exactly this operation (PUT resp. GET), target bound to exactly this
operation's address (container for PUT, container+object for GET), and
signed — and leaves the client's stored template, signing key and buffer size
unchanged. -/
theorem c7_session_token_scoping (cr : Crypto) (penv : PutEnv) (genv : GetEnv)
    (c : Client) (dcp dcg dog : Except String Nat)
    (headers : List (String × String)) (payload : List Nat) :
    (Client.Put cr penv c dcp headers payload).clientAfter = c ∧
    (Client.Get cr genv c dcg dog).clientAfter = c ∧
    (∀ t, (Client.Put cr penv c dcp headers payload).tokenPresented = some t →
      ∃ cidv s, dcp = .ok cidv ∧
        cr.signTok c.key ((c.tok.forVerb .objectPut).applyTo ⟨some cidv, none⟩) = .ok s ∧
        t = ⟨c.tok.body, some .objectPut, some ⟨some cidv, none⟩, some s⟩) ∧
    (∀ t, (Client.Get cr genv c dcg dog).tokenPresented = some t →
      ∃ cidv oidv s, dcg = .ok cidv ∧ dog = .ok oidv ∧
        cr.signTok c.key ((c.tok.forVerb .objectGet).applyTo ⟨some cidv, some oidv⟩) = .ok s ∧
        t = ⟨c.tok.body, some .objectGet, some ⟨some cidv, some oidv⟩, some s⟩) := by
  refine ⟨?_, ?_, ?_, ?_⟩
  · rcases dcp with e | cidv
    · rfl
    · rcases hs : cr.signTok c.key
          ((c.tok.forVerb .objectPut).applyTo ⟨some cidv, none⟩) with e | s
      · simp [Client.Put, hs]
      · simp only [Client.Put, hs]
        split
        · rfl
        · split <;> rfl
  · rcases dcg with e | cidv
    · rfl
    · rcases dog with e | oidv
      · rfl
      · rcases hs : cr.signTok c.key
            ((c.tok.forVerb .objectGet).applyTo ⟨some cidv, some oidv⟩) with e | s
        · simp [Client.Get, hs]
        · obtain ⟨ie, hok, reads1, cerr⟩ := genv
          rcases ie with _ | e
          · cases hok <;> rcases cerr with _ | e <;> simp [Client.Get, hs]
          · simp [Client.Get, hs]
  · intro t ht
    rcases dcp with e | cidv
    · exact absurd ht (by simp [Client.Put])
    · rcases hs : cr.signTok c.key
          ((c.tok.forVerb .objectPut).applyTo ⟨some cidv, none⟩) with e | s
      · exact absurd ht (by simp [Client.Put, hs])
      · refine ⟨cidv, s, rfl, hs, ?_⟩
        simp only [Client.Put, hs] at ht
        split at ht
        · simp only [Option.some.injEq] at ht
          subst ht
          rfl
        · split at ht <;>
          · simp only [Option.some.injEq] at ht
            subst ht
            rfl
  · intro t ht
    rcases dcg with e | cidv
    · exact absurd ht (by simp [Client.Get])
    · rcases dog with e | oidv
      · exact absurd ht (by simp [Client.Get])
      · rcases hs : cr.signTok c.key
            ((c.tok.forVerb .objectGet).applyTo ⟨some cidv, some oidv⟩) with e | s
        · exact absurd ht (by simp [Client.Get, hs])
        · refine ⟨cidv, oidv, s, rfl, rfl, hs, ?_⟩
          obtain ⟨ie, hok, reads1, cerr⟩ := genv
          rcases ie with _ | e
          · cases hok <;> rcases cerr with _ | e <;>
            · simp [Client.Get, hs] at ht
              rw [← ht]
              rfl
          · simp [Client.Get, hs] at ht
            rw [← ht]
            rfl

/-- C7 witness: the token presented by a concrete `Client.Put` is the base
template re-scoped to PUT on container 1 and signed. -/
theorem c7_session_token_scoping_witness :
    ∃ cidv s, (Except.ok 1 : Except String Nat) = .ok cidv ∧
      cr0.signTok client0.key
        ((client0.tok.forVerb .objectPut).applyTo ⟨some cidv, none⟩) = .ok s ∧
      (⟨0, some .objectPut, some ⟨some 1, none⟩, some [8]⟩ : SessionToken)
        = ⟨client0.tok.body, some .objectPut, some ⟨some cidv, none⟩, some s⟩ :=
  (c7_session_token_scoping cr0 penv0 genv0 client0 (.ok 1) (.ok 1) (.ok 2) [] []).2.2.1
    ⟨0, some .objectPut, some ⟨some 1, none⟩, some [8]⟩ rfl

/-- C9: failure paths that report via the close error always receive one, under
the stream contract of the specification (section 4.5: a rejected header write
surfaces a close error; a successful close carries the stored-object response;
a failed header read is surfaced by the close), stated as hypotheses on the
per-execution environment.  Then: whenever the inner `put` returns a nil
error, its returned response is non-nil (so `Client.Put` never reads the
stored object id from a nil response); and whenever `Client.Get`'s header read
fails on a reached stream, the close error it reports is present, so the
failed response's error description is well-defined. -/
theorem c9_close_error_paths (cr : Crypto) (penv : PutEnv) (genv : GetEnv)
    (c : Client) (bufsize : Nat) (tok : Option SessionToken) (hdr : ObjectHeader)
    (payload : List Nat) (dcg dog : Except String Nat)
    (hA : penv.writeHeaderOk = false → penv.closeErr ≠ none)
    (hB : penv.closeErr = none → penv.closeResp ≠ none)
    (hC : genv.headerOk = false → genv.closeErr ≠ none) :
    ((put penv bufsize tok hdr payload).err = none →
      (put penv bufsize tok hdr payload).resp ≠ none) ∧
    (∀ cidv oidv s, dcg = .ok cidv → dog = .ok oidv →
      cr.signTok c.key ((c.tok.forVerb .objectGet).applyTo ⟨some cidv, some oidv⟩) = .ok s →
      genv.initErr = none → genv.headerOk = false →
      ∃ e, genv.closeErr = some e ∧
        (Client.Get cr genv c dcg dog).response = some ⟨false, some e⟩) := by
  constructor
  · intro he
    obtain ⟨ie, whk, acc, cresp, cerr⟩ := penv
    rcases ie with _ | e
    · cases whk
      · simp [put] at he
        exact absurd he (hA rfl)
      · rcases cerr with _ | e
        · simp [put]
          exact hB rfl
        · simp [put] at he
    · simp [put] at he
  · intro cidv oidv s hdcg hdog hs hie hhok
    subst hdcg
    subst hdog
    obtain ⟨ie, hok, reads1, cerr⟩ := genv
    have hie2 : ie = none := hie
    have hhok2 : hok = false := hhok
    subst hie2
    subst hhok2
    rcases cerr with _ | e
    · exact absurd rfl (hC rfl)
    · exact ⟨e, rfl, by simp [Client.Get, hs]⟩

/-- C9 witness: a fully successful put stream returns a response; a get stream
whose header read fails gets its close error into the failed response. -/
theorem c9_close_error_paths_witness :
    (put penv0 4 none {} [1]).resp ≠ none ∧
    ∃ e, genvH.closeErr = some e ∧
      (Client.Get cr0 genvH client0 (.ok 1) (.ok 2)).response = some ⟨false, some e⟩ := by
  have h := c9_close_error_paths cr0 penv0 genvH client0 4 none {} [1] (.ok 1) (.ok 2)
    (by simp [penv0]) (by simp [penv0]) (by simp [genvH])
  exact ⟨h.1 rfl, h.2 1 2 [8] rfl rfl rfl rfl rfl⟩

/-- C4: whenever a `Client.Put` or `Client.Get` invocation returns a failed
result to the caller, the corresponding failure counter was reported exactly
once before returning; whenever it returns a successful result, the failure
counter was not reported at all.  (Executions that panic return no result and
are not covered by the claim.) -/
theorem c4_failure_counter (cr : Crypto) (penv : PutEnv) (genv : GetEnv)
    (c : Client) (dcp dcg dog : Except String Nat)
    (headers : List (String × String)) (payload : List Nat) :
    (∀ r, (Client.Put cr penv c dcp headers payload).response = some r →
      (Client.Put cr penv c dcp headers payload).failReports
        = if r.success then 0 else 1) ∧
    (∀ r, (Client.Get cr genv c dcg dog).response = some r →
      (Client.Get cr genv c dcg dog).failReports = if r.success then 0 else 1) := by
  constructor
  · intro r hr
    obtain ⟨ie, whk, acc, cresp, cerr⟩ := penv
    rcases dcp with e | cidv
    · exact absurd hr (by simp [Client.Put])
    · rcases hs : cr.signTok c.key
          ((c.tok.forVerb .objectPut).applyTo ⟨some cidv, none⟩) with e | s
      · exact absurd hr (by simp [Client.Put, hs])
      · rcases ie with _ | e
        · cases whk
          · rcases cerr with _ | e
            · exact absurd hr (by simp [Client.Put, put, hs])
            · simp [Client.Put, put, hs] at hr
              rw [← hr]
              simp [Client.Put, put, hs]
          · rcases cerr with _ | e
            · rcases cresp with _ | storedID
              · exact absurd hr (by simp [Client.Put, put, hs])
              · simp [Client.Put, put, hs] at hr
                rw [← hr]
                simp [Client.Put, put, hs]
            · simp [Client.Put, put, hs] at hr
              rw [← hr]
              simp [Client.Put, put, hs]
        · simp [Client.Put, put, hs] at hr
          rw [← hr]
          simp [Client.Put, put, hs]
  · intro r hr
    obtain ⟨ie, hok, reads1, cerr⟩ := genv
    rcases dcg with e | cidv
    · exact absurd hr (by simp [Client.Get])
    · rcases dog with e | oidv
      · exact absurd hr (by simp [Client.Get])
      · rcases hs : cr.signTok c.key
            ((c.tok.forVerb .objectGet).applyTo ⟨some cidv, some oidv⟩) with e | s
        · exact absurd hr (by simp [Client.Get, hs])
        · rcases ie with _ | e
          · cases hok
            · rcases cerr with _ | e
              · exact absurd hr (by simp [Client.Get, hs])
              · simp [Client.Get, hs] at hr
                rw [← hr]
                simp [Client.Get, hs]
            · rcases cerr with _ | e
              · simp [Client.Get, hs] at hr
                rw [← hr]
                simp [Client.Get, hs]
              · simp [Client.Get, hs] at hr
                rw [← hr]
                simp [Client.Get, hs]
          · simp [Client.Get, hs] at hr
            rw [← hr]
            simp [Client.Get, hs]

/-- C4 witness: a fully successful concrete PUT reports no failure. -/
theorem c4_failure_counter_witness :
    (Client.Put cr0 penv0 client0 (.ok 1) [] [1, 2]).failReports
      = if (⟨true, some [9], none⟩ : PutResponse).success then 0 else 1 :=
  (c4_failure_counter cr0 penv0 genv0 client0 (.ok 1) (.ok 1) (.ok 2) [] [1, 2]).1
    ⟨true, some [9], none⟩ rfl
